import Mathlib

/-!
A verification development for the OrbisAI ingestion service.

The Python source of the service is translated here as a shallow embedding:
pure helpers become Lean functions, the Redis status store, the digest store
and the vector collection become explicit state passing, and every external
capability (sentence embedder, summarization model, QA model, cross encoder,
ANN index search) becomes a function-valued field of a configuration record.
Fallible capabilities return Except.  Numeric similarity scores are modelled
over the rationals.  Word counting mirrors the Python idiom
len(s.split()), and joining mirrors sep.join(parts).
-/

namespace OrbisAI

/-- Whitespace test used by word splitting; mirrors the separators the Python
str.split() default uses on the texts handled here (space, newline, tab,
carriage return). -/
def isWsChar (c : Char) : Bool := c = ' ' || c = '\n' || c = '\t' || c = '\r'

/-- Accumulator-based word splitter over a character list: cur holds the
reversed characters of the word currently being read. -/
def wordsAux : List Char → List Char → List (List Char)
  | cur, [] => if cur = [] then [] else [cur.reverse]
  | cur, c :: cs =>
    if isWsChar c then
      if cur = [] then wordsAux [] cs else cur.reverse :: wordsAux [] cs
    else wordsAux (c :: cur) cs

/-- The words of a string, as the Python expression s.split() produces them. -/
def words (s : String) : List (List Char) := wordsAux [] s.data

/-- Word count of a string: the Python expression len(s.split()). -/
def wordCount (s : String) : Nat := (words s).length

/-- Join a list of strings with a separator, as Python sep.join(parts). -/
def joinSep (sep : String) : List String → String
  | [] => ""
  | [x] => x
  | x :: y :: rest => x ++ sep ++ joinSep sep (y :: rest)

/-- Splitting after a whitespace character flushes the current word and
restarts: key lemma for distributing word counts over joins. -/
theorem wordsAux_ws_cons (cur : List Char) (c : Char) (cs : List Char)
    (h : isWsChar c = true) :
    wordsAux cur (c :: cs) =
      (if cur = [] then [] else [cur.reverse]) ++ wordsAux [] cs := by
  by_cases hcur : cur = [] <;> simp [wordsAux, h, hcur]

/-- Word splitting distributes over an interposed whitespace character. -/
theorem wordsAux_append_ws (a : List Char) (cur : List Char) (c : Char)
    (b : List Char) (h : isWsChar c = true) :
    wordsAux cur (a ++ c :: b) = wordsAux cur a ++ wordsAux [] b := by
  induction a generalizing cur with
  | nil =>
    rw [List.nil_append, wordsAux_ws_cons cur c b h]
    by_cases hcur : cur = [] <;> simp [wordsAux, hcur]
  | cons d a' ih =>
    by_cases hd : isWsChar d = true
    · by_cases hcur : cur = [] <;>
        simp [List.cons_append, wordsAux, hd, hcur, ih]
    · simp only [List.cons_append, wordsAux, hd, Bool.false_eq_true, if_false]
      exact ih (d :: cur)

/-- A leading run of whitespace characters is ignored by word splitting. -/
theorem wordsAux_ws_run (w b : List Char) (h : w.all isWsChar = true) :
    wordsAux [] (w ++ b) = wordsAux [] b := by
  induction w with
  | nil => rfl
  | cons c w' ih =>
    rw [List.all_cons, Bool.and_eq_true] at h
    rw [List.cons_append, wordsAux_ws_cons [] c (w' ++ b) h.1]
    simp [ih h.2]

/-- Word splitting distributes over an interposed nonempty all-whitespace
separator. -/
theorem wordsAux_append_ws_run (a cur : List Char) (c : Char) (w b : List Char)
    (hc : isWsChar c = true) (hw : w.all isWsChar = true) :
    wordsAux cur (a ++ (c :: w) ++ b) = wordsAux cur a ++ wordsAux [] b := by
  rw [List.append_assoc, List.cons_append, wordsAux_append_ws a cur c (w ++ b) hc,
    wordsAux_ws_run w b hw]

/-- The character data of an appended string is the appended data. -/
theorem string_data_append (s t : String) : (s ++ t).data = s.data ++ t.data :=
  String.data_append s t

/-- Word count distributes over appending a string that starts after a
whitespace-terminated header. -/
theorem words_append_of_sep (x sep y : String) (c : Char) (w : List Char)
    (hsep : sep.data = c :: w) (hc : isWsChar c = true)
    (hw : w.all isWsChar = true) :
    words (x ++ sep ++ y) = words x ++ words y := by
  unfold words
  rw [string_data_append, string_data_append, hsep]
  exact wordsAux_append_ws_run x.data [] c w y.data hc hw

/-- Word count splits across a nonempty all-whitespace separator. -/
theorem wordCount_append_of_sep (x sep y : String) (c : Char) (w : List Char)
    (hsep : sep.data = c :: w) (hc : isWsChar c = true)
    (hw : w.all isWsChar = true) :
    wordCount (x ++ sep ++ y) = wordCount x + wordCount y := by
  unfold wordCount
  rw [words_append_of_sep x sep y c w hsep hc hw]
  exact List.length_append _ _

/-- Word count of a join by a nonempty all-whitespace separator is the sum of
the word counts of the parts. -/
theorem wordCount_joinSep (sep : String) (c : Char) (w : List Char)
    (hsep : sep.data = c :: w) (hc : isWsChar c = true)
    (hw : w.all isWsChar = true) (parts : List String) :
    wordCount (joinSep sep parts) = (parts.map wordCount).sum := by
  induction parts with
  | nil => rfl
  | cons x rest ih =>
    cases rest with
    | nil => simp [joinSep, wordCount]
    | cons y rest' =>
      rw [joinSep, wordCount_append_of_sep x sep _ c w hsep hc hw, ih]
      simp [List.map_cons, List.sum_cons]

/-- Word count of a join by the separator of two newline characters. -/
theorem wordCount_joinSep_nn (parts : List String) :
    wordCount (joinSep "\n\n" parts) = (parts.map wordCount).sum :=
  wordCount_joinSep "\n\n" '\n' ['\n'] rfl rfl rfl parts

/-- Word count of a join by a single space. -/
theorem wordCount_joinSep_space (parts : List String) :
    wordCount (joinSep " " parts) = (parts.map wordCount).sum :=
  wordCount_joinSep " " ' ' [] rfl rfl rfl parts

/-- Boolean test that the first list leads the second (Python startswith on
character lists). -/
def leadsWith : List Char → List Char → Bool
  | [], _ => true
  | _ :: _, [] => false
  | a :: as, b :: bs => a = b && leadsWith as bs

/-- Boolean test that a string ends with a suffix; mirrors Python
str.endswith. -/
def strEndsWith (s suf : String) : Bool :=
  leadsWith suf.data.reverse s.data.reverse

/-- Boolean substring containment on character lists; mirrors the Python
expression needle in hay. -/
def occursIn (needle : List Char) : List Char → Bool
  | [] => leadsWith needle []
  | c :: cs => leadsWith needle (c :: cs) || occursIn needle cs

/-- ASCII lower-casing of one character; the texts handled by the service are
modelled over the ASCII fragment of Python str.lower. -/
def lowerChar (c : Char) : Char :=
  if 65 ≤ c.toNat ∧ c.toNat ≤ 90 then Char.ofNat (c.toNat + 32) else c

/-- Lower-cased string, mirroring Python str.lower on ASCII text. -/
def lowerStr (s : String) : String := String.mk (s.data.map lowerChar)

/-- Strip leading and trailing whitespace, mirroring Python str.strip. -/
def strTrim (s : String) : String :=
  String.mk (((s.data.dropWhile (isWsChar ·)).reverse.dropWhile (isWsChar ·)).reverse)

/-- An extracted section as produced by
DocumentProcessor.extract_text_and_metadata: page and paragraph provenance
plus the text, with the document name tagged on by the ingestion loop. -/
structure Page where
  page : Nat
  paragraph : Nat
  text : String
  docName : String
deriving DecidableEq, Repr

/-- Chunk or summary metadata as stored alongside a vector record.  The
Python metadata dict for a plain chunk has keys doc_name, page and paragraph;
the synthetic summary record adds summary=True.  The absent key is modelled
as isSummary=false. -/
structure Meta where
  docName : String
  page : Nat
  paragraph : Nat
  isSummary : Bool
deriving DecidableEq, Repr

/-- A record held by the vector collection: generated id, chunk text, its
embedding vector and its metadata. -/
structure VecRecord where
  rid : Nat
  text : String
  vec : List ℚ
  meta : Meta
deriving DecidableEq, Repr

/-- Shape of QdrantVectorDB.query output: parallel document, metadata and
distance lists plus the summary texts fetched for the matched documents. -/
structure QueryResults where
  documents : List String
  metadatas : List Meta
  distances : List ℚ
  summaries : List String
deriving DecidableEq, Repr

/-- Output of the question-answering capability: answer text and confidence
score. -/
structure AnswerOut where
  answer : String
  score : ℚ
deriving DecidableEq, Repr

/-- The rag_metrics diagnostic computed by compute_rag_metrics. -/
structure RagMetrics where
  answerInContext : Bool
  contextPrecision : ℚ
deriving DecidableEq, Repr

/-- One entry of the ranked_matches list of a query response. -/
structure RankedMatch where
  text : String
  metadata : Meta
  similarity : ℚ
deriving DecidableEq, Repr

/-- The response dictionary of IngestService.query_docs.  The Python success
dict carries a rag_metrics key that the canned and error dicts omit; key
absence is modelled by ragMetrics=none. -/
structure QueryResult where
  question : String
  answer : String
  score : ℚ
  context : List String
  summary : String
  sources : List Meta
  rankedMatches : List RankedMatch
  ragMetrics : Option RagMetrics
deriving DecidableEq, Repr

/-- Configuration and external capabilities of the service: environment
values read at startup plus the injected models and stores.  Each fallible
external call is a function returning Except. -/
structure Svc where
  threshold : ℚ
  maxTokens : Nat
  batchSize : Nat
  sumChunkSize : Nat
  hashFn : List Nat → Nat
  extract : String → List Nat → List Page
  splitText : String → List String
  encode : List String → Except String (List (List ℚ))
  summarize : String → Nat → Nat → Except String String
  ceScore : String → String → ℚ
  qa : String → String → Except String AnswerOut
  storeQuery : List ℚ → Nat → QueryResults

/-- The E5 formatting applied inside batch_embed_texts: a text ending in a
question mark is prefixed with the query marker, all others with the passage
marker. -/
def formatForEmbed (t : String) : String :=
  if strEndsWith t "?" then "query: " ++ t else "passage: " ++ t

/-- IngestService.batch_embed_texts: format the texts, call the embedding
model once, and on any failure swallow the exception and return the empty
list. -/
def batchEmbedTexts (svc : Svc) (texts : List String) : List (List ℚ) :=
  match svc.encode (texts.map formatForEmbed) with
  | Except.ok vs => vs
  | Except.error _ => []

/-- Fixed-size slices of a character list: the Python window expression
text[i:i+chunk_size] for i in range(0, len(text), chunk_size), for a
positive chunk size. -/
def sliceChunks (cs : Nat) (l : List Char) : List (List Char) :=
  (List.range ((l.length + cs - 1) / cs)).map (fun k => (l.drop (k * cs)).take cs)

/-- Fixed-size character windows of a string. -/
def stringWindows (cs : Nat) (s : String) : List String :=
  (sliceChunks cs s.data).map String.mk

/-- The max_length argument computed for one summarization window:
min(500, half the window word count) floored at 30. -/
def windowMaxLen (chunk : String) : Nat :=
  max (min 500 (wordCount chunk / 2)) 30

/-- One loop iteration of hierarchical_summarize: summarize the window, and
on failure substitute the empty string. -/
def windowSummary (svc : Svc) (chunk : String) : String :=
  match svc.summarize chunk (windowMaxLen chunk) 20 with
  | Except.ok s => s
  | Except.error _ => ""

/-- All window summaries of a text, in window order. -/
def windowSummaries (svc : Svc) (text : String) : List String :=
  (stringWindows svc.sumChunkSize text).map (windowSummary svc)

/-- The space-join of the window summaries, the combined_summary variable of
hierarchical_summarize. -/
def combinedSummary (svc : Svc) (text : String) : String :=
  joinSep " " (windowSummaries svc text)

/-- The max_length argument of the final reduction pass:
min(100, half the combined word count) floored at 30. -/
def finalMaxLen (combined : String) : Nat :=
  max (min 100 (wordCount combined / 2)) 30

/-- IngestService.hierarchical_summarize: split the text into fixed-size
windows, summarize each window with empty-string fallback, join the window
summaries with a space, then run one final reduction pass over the join and
fall back to the join itself when that pass fails.  The per-window loop is
the Python for-loop appending to the summaries list. -/
def hierarchicalSummarize (svc : Svc) (text : String) : String :=
  let chunks := stringWindows svc.sumChunkSize text
  let summaries := chunks.foldl (fun acc chunk => acc ++ [windowSummary svc chunk]) []
  let combined := joinSep " " summaries
  match svc.summarize combined (finalMaxLen combined) 20 with
  | Except.ok s => s
  | Except.error _ => combined

/-- A retrieved match kept by query_docs: document text, metadata and the
similarity score 1 - distance. -/
structure DocEntry where
  document : String
  metadata : Meta
  score : ℚ
deriving DecidableEq, Repr

/-- The all_docs list comprehension of query_docs: zip documents, metadatas
and distances, convert each distance to the similarity 1 - distance, and
keep exactly the entries whose similarity reaches the threshold. -/
def qualifyingDocs (threshold : ℚ) (res : QueryResults) : List DocEntry :=
  ((res.documents.zip res.metadatas).zip res.distances).filterMap
    (fun p => if threshold ≤ 1 - p.2 then some ⟨p.1.1, p.1.2, 1 - p.2⟩ else none)

/-- Insert into a list sorted descending by the key (stable: equal keys keep
the existing element first). -/
def insertDescBy (key : α → ℚ) (x : α) : List α → List α
  | [] => [x]
  | y :: ys => if key y < key x then x :: y :: ys else y :: insertDescBy key x ys

/-- Stable sort descending by a rational key; models Python
sorted(..., key=..., reverse=True). -/
def sortDescBy (key : α → ℚ) : List α → List α
  | [] => []
  | x :: xs => insertDescBy key x (sortDescBy key xs)

/-- rerank_with_cross_encoder: score each (query, document) pair with the
cross encoder and sort the entries descending by that rerank score. -/
def rerankWithCrossEncoder (svc : Svc) (query : String) (docs : List DocEntry) :
    List DocEntry :=
  sortDescBy (fun d => svc.ceScore query d.document) docs

/-- The context-building loop of query_docs over the reranked entries: a
chunk whose word count would push the running count past the budget triggers
the break, dropping it and every later chunk; otherwise the chunk text is
appended whole and the running count advances. -/
def addChunksToContext (budget : Nat) : List DocEntry → Nat → List String × Nat
  | [], tc => ([], tc)
  | d :: ds, tc =>
    let w := wordCount d.document
    if budget < tc + w then ([], tc)
    else
      let r := addChunksToContext budget ds (tc + w)
      (d.document :: r.1, r.2)

/-- The context_parts list and final token_count of query_docs: the summary
block goes first when the summary text is nonempty (its word count seeding
the running count), then the budgeted chunk texts. -/
def qaContextParts (summaryText : String) (docs : List DocEntry) (budget : Nat) :
    List String × Nat :=
  let base : List String × Nat :=
    if summaryText = "" then ([], 0)
    else (["Summary:\n" ++ summaryText], wordCount summaryText)
  let r := addChunksToContext budget docs base.2
  (base.1 ++ r.1, r.2)

/-- compute_rag_metrics: count the retained chunk texts that contain the
lower-cased answer verbatim; report whether any does and the contained
fraction. -/
def computeRagMetrics (answer : String) (docs : List String) : RagMetrics :=
  let al := lowerStr answer
  let hits := (docs.filter (fun d => occursIn al.data (lowerStr d).data)).length
  { answerInContext := decide (0 < hits)
  , contextPrecision := if docs.length = 0 then 0 else (hits : ℚ) / (docs.length : ℚ) }

/-- The canned short-circuit response of query_docs when no match reaches the
similarity threshold. -/
def cannedResult (q : String) : QueryResult :=
  { question := q
  , answer := "No relevant information found."
  , score := 0
  , context := []
  , summary := ""
  , sources := []
  , rankedMatches := []
  , ragMetrics := none }

/-- The degraded response built by the exception handler of query_docs. -/
def degradedResult (q : String) : QueryResult :=
  { question := q
  , answer := "An error occurred while processing your query."
  , score := 0
  , context := []
  , summary := ""
  , sources := []
  , rankedMatches := []
  , ragMetrics := none }

/-- Execution trace of one query_docs call: the returned response plus two
instrumentation fields, whether the QA capability was invoked and the exact
context string handed to it (empty when it was never reached). -/
structure QueryTrace where
  result : QueryResult
  qaInvoked : Bool
  qaContextStr : String
deriving DecidableEq, Repr

/-- IngestService.query_docs as a state trace.  Embed the question (an empty
embedding list makes the [0] subscript raise, landing in the exception
handler), query the store for the top 10, filter by threshold, short-circuit
on no qualifying match, sort and rerank, assemble the budgeted context,
invoke QA (failure lands in the exception handler), and build the success
response with rag_metrics. -/
def queryDocsTrace (svc : Svc) (question : String) : QueryTrace :=
  match batchEmbedTexts svc [question] with
  | [] => ⟨degradedResult question, false, ""⟩
  | qe :: _ =>
    let results := svc.storeQuery qe 10
    match qualifyingDocs svc.threshold results with
    | [] => ⟨cannedResult question, false, ""⟩
    | d0 :: drest =>
      let allDocs := d0 :: drest
      let sortedDocs := sortDescBy (fun d => d.score) allDocs
      let reranked := rerankWithCrossEncoder svc question sortedDocs
      let summaryText := joinSep "\n\n" results.summaries
      let parts := qaContextParts summaryText reranked svc.maxTokens
      let context := joinSep "\n\n" parts.1
      match svc.qa question context with
      | Except.error _ => ⟨degradedResult question, true, context⟩
      | Except.ok ans =>
        let answerText :=
          if strTrim ans.answer = "" then "I'm not sure based on the available information."
          else strTrim ans.answer
        let ragM := computeRagMetrics answerText (reranked.map (fun d => d.document))
        ⟨{ question := question
         , answer := answerText
         , score := ans.score
         , context := reranked.map (fun d => d.document)
         , summary := summaryText
         , sources := reranked.map (fun d => d.metadata)
         , rankedMatches := reranked.map (fun d => ⟨d.document, d.metadata, d.score⟩)
         , ragMetrics := some ragM }, true, context⟩

/-- The response dictionary returned by IngestService.query_docs. -/
def queryDocs (svc : Svc) (question : String) : QueryResult :=
  (queryDocsTrace svc question).result

/-- The per-document ingestion status written to the status store under the
key ingestion_status:filename.  The skipped and failed variants stand for
the Python status strings Skipped:... and failed:reason. -/
inductive Status where
  | started : Status
  | skipped : Status
  | completed : Status
  | failedWith : String → Status
deriving DecidableEq, Repr

/-- Mutable state threaded through ingestion: the vector collection, the
persisted content digests keyed by filename, the status store keyed by
status key, an append-only log of every status write, and the id supply for
freshly generated record ids. -/
structure St where
  vectors : List VecRecord
  digests : String → Option Nat
  statusMap : String → Option Status
  statusLog : List (String × Status)
  nextId : Nat

/-- One r.set on the ingestion status store: update the keyed value and log
the write. -/
def setStatus (s : St) (key : String) (v : Status) : St :=
  { s with
    statusMap := fun k => if k = key then some v else s.statusMap k
  , statusLog := s.statusLog ++ [(key, v)] }

/-- DocumentProcessor.save_document_checksum: persist the digest of the
content under the filename. -/
def saveChecksum (s : St) (filename : String) (h : Nat) : St :=
  { s with digests := fun k => if k = filename then some h else s.digests k }

/-- DocumentProcessor.document_exists_and_handle_update: the digest check is
true exactly when a digest is stored for the filename and equals the digest
of the incoming content. -/
def documentExistsAndHandleUpdate (s : St) (svc : Svc) (filename : String)
    (content : List Nat) : Bool :=
  s.digests filename = some (svc.hashFn content)

/-- QdrantVectorDB.add_documents on the modelled collection: zip the parallel
document, embedding and metadata lists into records with freshly generated
ids and append them. -/
def addDocuments (s : St) (docs : List String) (embs : List (List ℚ))
    (metas : List Meta) : St :=
  let recs := (((docs.zip embs).zip metas).enum).map
    (fun p => (⟨s.nextId + p.1, p.2.1.1, p.2.1.2, p.2.2⟩ : VecRecord))
  { s with vectors := s.vectors ++ recs, nextId := s.nextId + docs.length }

/-- The batch slices chunks[i:i+B] for i in range(0, len(chunks), B), for a
positive batch size B. -/
def batched (b : Nat) (l : List α) : List (List α) :=
  (List.range ((l.length + b - 1) / b)).map (fun k => (l.drop (k * b)).take b)

/-- An ingestion request after transport decoding: the filename and the raw
content bytes (the base64 wire encoding is inverted by b64decode before any
use, so content is modelled directly as the byte list). -/
structure IngestRequest where
  filename : String
  content : List Nat
deriving DecidableEq, Repr

/-- DocumentProcessor.chunk_text_with_metadata over the tagged pages: split
every page text with the configured splitter and tag each chunk with the
provenance of its page. -/
def chunkWithMeta (svc : Svc) (pages : List Page) : List (String × Meta) :=
  (pages.map (fun p =>
    (svc.splitText p.text).map
      (fun c => (c, (⟨p.docName, p.page, p.paragraph, false⟩ : Meta))))).flatten

/-- IngestService.ingest_document: set the started status; skip when the
digest check reports the same content already ingested; otherwise extract
and tag pages, chunk them, embed and store batch by batch (an empty
embedding result logs a warning and continues with the next batch), embed
and store the hierarchical summary when its embedding succeeds, save the
digest and set the completed status. -/
def ingestDocument (svc : Svc) (s0 : St) (req : IngestRequest) : St :=
  let key := "ingestion_status:" ++ req.filename
  let s1 := setStatus s0 key Status.started
  if documentExistsAndHandleUpdate s1 svc req.filename req.content then
    setStatus s1 key Status.skipped
  else
    let pages := (svc.extract req.filename req.content).map
      (fun p => { p with docName := req.filename })
    let cm := chunkWithMeta svc pages
    let chunks := cm.map Prod.fst
    let metas := cm.map Prod.snd
    let s2 := ((batched svc.batchSize chunks).zip (batched svc.batchSize metas)).foldl
      (fun s bp =>
        match batchEmbedTexts svc bp.1 with
        | [] => s
        | v :: vs => addDocuments s bp.1 (v :: vs) bp.2) s1
    let fullText := joinSep "\n\n" (pages.map (fun p => p.text))
    let summary := hierarchicalSummarize svc fullText
    let s3 := match batchEmbedTexts svc [summary] with
      | [] => s2
      | v :: _ =>
        addDocuments s2 [summary] [v] [⟨req.filename, 0, 0, true⟩]
    let s4 := saveChecksum s3 req.filename (svc.hashFn req.content)
    setStatus s4 key Status.completed

/-- A file found by the directory scan of the bulk ingestor: its basename
(the ledger key) and its path. -/
structure ScannedFile where
  name : String
  path : String
deriving DecidableEq, Repr

/-- The rglob-plus-pattern filter of BulkFileIngestor.run_ingestion: keep the
scanned entries whose name ends with one of the configured extensions. -/
def matchedFiles (entries : List ScannedFile) (patterns : List String) :
    List ScannedFile :=
  entries.filter (fun f => patterns.any (fun ext => strEndsWith f.name ext))

/-- The pending set of run_ingestion: all matched files whose name is not a
key of the loaded success ledger. -/
def pendingFiles (entries : List ScannedFile) (patterns : List String)
    (successMap : List (String × String)) : List ScannedFile :=
  let allFiles := matchedFiles entries patterns
  let doneFiles := successMap.map Prod.fst
  allFiles.filter (fun f => decide (f.name ∉ doneFiles))

/-- The files for which run_ingestion creates ingestion tasks: none when the
pending list is empty (the early Nothing-to-ingest return), and exactly the
pending files otherwise. -/
def runIngestionDispatch (entries : List ScannedFile) (patterns : List String)
    (successMap : List (String × String)) : List ScannedFile :=
  let pending := pendingFiles entries patterns successMap
  if pending.isEmpty then [] else pending

/-- The attempt loop of the async_retry decorator in ingest.py: attempts are
numbered from zero; a successful call returns at once, a failing call on the
last attempt re-raises, any other failing call sleeps and retries.  The
result is paired with the number of attempts made.  The remaining counter
carries the length of the Python range. -/
def retryGo (f : Nat → Except String α) (retries : Nat) :
    Nat → Nat → Except String α × Nat
  | attempt, 0 => (Except.error "retry loop exhausted", attempt)
  | attempt, rem + 1 =>
    match f attempt with
    | Except.ok a => (Except.ok a, attempt + 1)
    | Except.error e =>
      if attempt = retries - 1 then (Except.error e, attempt + 1)
      else retryGo f retries (attempt + 1) rem

/-- async_retry(retries)(func): run the attempt loop from attempt zero. -/
def asyncRetry (retries : Nat) (f : Nat → Except String α) :
    Except String α × Nat :=
  retryGo f retries 0 retries

/-- The body of the decorated batch_embed_texts of ingest.py: the embedding
request is guarded by its own try/except that swallows every failure and
returns the empty list, so each attempt reports success to the retry
wrapper. -/
def swallowingEmbedOnce (embedCall : Nat → Except String (List (List ℚ)))
    (attempt : Nat) : Except String (List (List ℚ)) :=
  match embedCall attempt with
  | Except.ok vs => Except.ok vs
  | Except.error _ => Except.ok []

/-- batch_embed_texts of ingest.py as deployed: the swallowing body wrapped
by async_retry with its default of three retries. -/
def ingestPyBatchEmbed (embedCall : Nat → Except String (List (List ℚ))) :
    Except String (List (List ℚ)) × Nat :=
  asyncRetry 3 (swallowingEmbedOnce embedCall)

/-- A service record whose external embedding, summarization and QA
capabilities all fail unconditionally, used to exercise failure paths. -/
def svcAllFail : Svc :=
  { threshold := 0
  , maxTokens := 3000
  , batchSize := 50
  , sumChunkSize := 500
  , hashFn := fun _ => 0
  , extract := fun _ _ => []
  , splitText := fun t => [t]
  , encode := fun _ => Except.error "embedder down"
  , summarize := fun _ _ _ => Except.error "summarizer down"
  , ceScore := fun _ _ => 0
  , qa := fun _ _ => Except.error "qa down"
  , storeQuery := fun _ _ => ⟨[], [], [], []⟩ }

/-- Membership in an insertion is membership in the inserted element or the
old list. -/
theorem mem_insertDescBy (key : α → ℚ) (x a : α) (l : List α) :
    a ∈ insertDescBy key x l ↔ a = x ∨ a ∈ l := by
  induction l with
  | nil => simp [insertDescBy]
  | cons y ys ih =>
    by_cases h : key y < key x
    · simp [insertDescBy, h]
    · simp only [insertDescBy, h, if_false, List.mem_cons, ih]
      tauto

/-- Sorting descending by a key preserves membership. -/
theorem mem_sortDescBy (key : α → ℚ) (a : α) (l : List α) :
    a ∈ sortDescBy key l ↔ a ∈ l := by
  induction l with
  | nil => simp [sortDescBy]
  | cons x xs ih =>
    simp [sortDescBy, mem_insertDescBy, ih]

/-- C9: the run mode of the bulk ingestion coordinator dispatches exactly the
scanned files matching the configured patterns whose names are not keys of
the loaded success ledger; files already recorded as successes are never
dispatched. -/
theorem bulk_run_dispatches_pending_only (entries : List ScannedFile)
    (patterns : List String) (successMap : List (String × String))
    (f : ScannedFile) :
    f ∈ runIngestionDispatch entries patterns successMap ↔
      f ∈ matchedFiles entries patterns ∧ f.name ∉ successMap.map Prod.fst := by
  have hpend : f ∈ pendingFiles entries patterns successMap ↔
      f ∈ matchedFiles entries patterns ∧ f.name ∉ successMap.map Prod.fst := by
    unfold pendingFiles
    rw [List.mem_filter]
    simp
  unfold runIngestionDispatch
  by_cases h : (pendingFiles entries patterns successMap).isEmpty
  · rw [List.isEmpty_iff] at h
    simp only [h, List.isEmpty_nil, if_true]
    rw [h] at hpend
    simp only [List.not_mem_nil, false_iff] at hpend ⊢
    exact hpend
  · have h2 : (pendingFiles entries patterns successMap).isEmpty = false := by
      simpa using h
    simp only [h2, Bool.false_eq_true, if_false]
    exact hpend

/-- C6: the embedding call of ingest.py swallows every failure inside its own
body and returns the empty list, so its async_retry wrapper observes a
success on the first attempt: a forced always-failing embedding call makes
exactly one attempt and surfaces no failure, instead of exhausting the
configured attempts and surfacing a hard failure; the class-based
batch_embed_texts has no retry wrapper at all and returns the empty list. -/
theorem embed_retry_neutralized_single_attempt :
    ingestPyBatchEmbed (fun _ => Except.error "embedder down") =
      (Except.ok ([] : List (List ℚ)), 1) ∧
    batchEmbedTexts svcAllFail ["some text"] = [] := by
  constructor
  · rfl
  · rfl

/-- The status store write leaves the digest store untouched, so the digest
check reads through it unchanged. -/
theorem documentExistsAndHandleUpdate_setStatus (s : St) (key : String) (v : Status)
    (svc : Svc) (f : String) (c : List Nat) :
    documentExistsAndHandleUpdate (setStatus s key v) svc f c = documentExistsAndHandleUpdate s svc f c :=
  rfl

/-- When the digest check reports the content already ingested, the whole run
reduces to the two status writes. -/
theorem ingestDocument_skip_eq (svc : Svc) (s0 : St) (req : IngestRequest)
    (h : documentExistsAndHandleUpdate s0 svc req.filename req.content = true) :
    ingestDocument svc s0 req =
      setStatus (setStatus s0 ("ingestion_status:" ++ req.filename) Status.started)
        ("ingestion_status:" ++ req.filename) Status.skipped := by
  unfold ingestDocument
  simp only [documentExistsAndHandleUpdate_setStatus, h, if_true]

/-- A run whose digest check fails ends in the completed status with the
fresh digest saved. -/
theorem ingestDocument_completed_state (svc : Svc) (s0 : St) (req : IngestRequest)
    (h : documentExistsAndHandleUpdate s0 svc req.filename req.content = false) :
    (ingestDocument svc s0 req).digests req.filename = some (svc.hashFn req.content) ∧
    (ingestDocument svc s0 req).statusMap ("ingestion_status:" ++ req.filename) =
      some Status.completed := by
  unfold ingestDocument
  simp only [documentExistsAndHandleUpdate_setStatus, h, Bool.false_eq_true, if_false]
  constructor
  · simp [setStatus, saveChecksum]
  · simp [setStatus, saveChecksum]

/-- C10: on the skipped path, ingest_document changes no state but the status
store for its own filename: the vector collection, the digest store and the
id supply are untouched, exactly two status writes happen (started then the
skipped message) under the key of this filename, and every other status key
is unchanged. -/
theorem skipped_ingest_touches_only_status (svc : Svc) (s0 : St)
    (req : IngestRequest)
    (h : documentExistsAndHandleUpdate s0 svc req.filename req.content = true) :
    (ingestDocument svc s0 req).vectors = s0.vectors ∧
    (∀ k, (ingestDocument svc s0 req).digests k = s0.digests k) ∧
    (ingestDocument svc s0 req).nextId = s0.nextId ∧
    (ingestDocument svc s0 req).statusLog = s0.statusLog ++
      [("ingestion_status:" ++ req.filename, Status.started),
       ("ingestion_status:" ++ req.filename, Status.skipped)] ∧
    (ingestDocument svc s0 req).statusMap ("ingestion_status:" ++ req.filename) =
      some Status.skipped ∧
    (∀ k, k ≠ "ingestion_status:" ++ req.filename →
      (ingestDocument svc s0 req).statusMap k = s0.statusMap k) := by
  rw [ingestDocument_skip_eq svc s0 req h]
  refine ⟨rfl, fun k => rfl, rfl, by simp [setStatus], by simp [setStatus], ?_⟩
  intro k hk
  simp [setStatus, hk]

/-- C2: ingestion is idempotent: when a run of ingest_document for a request
ends in the completed status, running ingest_document again on the very same
filename and content bytes ends in the skipped status and appends no vector
record. -/
theorem ingest_idempotent_second_call_skips (svc : Svc) (s0 : St)
    (req : IngestRequest)
    (h : (ingestDocument svc s0 req).statusMap ("ingestion_status:" ++ req.filename) =
      some Status.completed) :
    (ingestDocument svc (ingestDocument svc s0 req) req).statusMap
      ("ingestion_status:" ++ req.filename) = some Status.skipped ∧
    (ingestDocument svc (ingestDocument svc s0 req) req).vectors =
      (ingestDocument svc s0 req).vectors := by
  by_cases hc : documentExistsAndHandleUpdate s0 svc req.filename req.content = true
  · rw [ingestDocument_skip_eq svc s0 req hc] at h
    simp [setStatus] at h
  · have hc' : documentExistsAndHandleUpdate s0 svc req.filename req.content = false := by
      simpa using hc
    have hd := (ingestDocument_completed_state svc s0 req hc').1
    have hcheck : documentExistsAndHandleUpdate (ingestDocument svc s0 req) svc
        req.filename req.content = true := by
      unfold documentExistsAndHandleUpdate
      rw [hd]
      simp
    rw [ingestDocument_skip_eq svc (ingestDocument svc s0 req) req hcheck]
    exact ⟨by simp [setStatus], rfl⟩

/-- The empty starting state: no vectors, no digests, no statuses. -/
def st0 : St :=
  { vectors := []
  , digests := fun _ => none
  , statusMap := fun _ => none
  , statusLog := []
  , nextId := 0 }

/-- A state already holding the digest that svcAllFail computes for the file
a.txt, so its digest check reports the content as already ingested. -/
def stWithDigest : St :=
  { vectors := []
  , digests := fun k => if k = "a.txt" then some 0 else none
  , statusMap := fun _ => none
  , statusLog := []
  , nextId := 0 }

/-- Witness for C10 at a concrete state whose digest store already holds the
digest of the incoming content. -/
theorem skipped_ingest_touches_only_status_witness :
    documentExistsAndHandleUpdate stWithDigest svcAllFail "a.txt" [] = true ∧
    (ingestDocument svcAllFail stWithDigest ⟨"a.txt", []⟩).vectors =
      stWithDigest.vectors ∧
    (ingestDocument svcAllFail stWithDigest ⟨"a.txt", []⟩).statusMap
      ("ingestion_status:" ++ "a.txt") = some Status.skipped ∧
    (ingestDocument svcAllFail stWithDigest ⟨"a.txt", []⟩).statusLog =
      stWithDigest.statusLog ++
        [("ingestion_status:" ++ "a.txt", Status.started),
         ("ingestion_status:" ++ "a.txt", Status.skipped)] :=
  ⟨by decide,
   (skipped_ingest_touches_only_status svcAllFail stWithDigest ⟨"a.txt", []⟩
     (by decide)).1,
   (skipped_ingest_touches_only_status svcAllFail stWithDigest ⟨"a.txt", []⟩
     (by decide)).2.2.2.2.1,
   (skipped_ingest_touches_only_status svcAllFail stWithDigest ⟨"a.txt", []⟩
     (by decide)).2.2.2.1⟩

/-- A service record whose capabilities all succeed: one page, one chunk per
page, constant embeddings and summaries. -/
def svcHappy : Svc :=
  { threshold := 0
  , maxTokens := 3000
  , batchSize := 50
  , sumChunkSize := 500
  , hashFn := fun _ => 5
  , extract := fun _ _ => [⟨1, 1, "body", ""⟩]
  , splitText := fun t => [t]
  , encode := fun xs => Except.ok (xs.map (fun _ => [0]))
  , summarize := fun _ _ _ => Except.ok "sum"
  , ceScore := fun _ _ => 0
  , qa := fun _ _ => Except.ok ⟨"ans", 1⟩
  , storeQuery := fun _ _ => ⟨[], [], [], []⟩ }

/-- Witness for C2 at a concrete fully successful first run. -/
theorem ingest_idempotent_second_call_skips_witness :
    (ingestDocument svcHappy st0 ⟨"b.txt", [9]⟩).statusMap
      ("ingestion_status:" ++ "b.txt") = some Status.completed ∧
    (ingestDocument svcHappy (ingestDocument svcHappy st0 ⟨"b.txt", [9]⟩)
      ⟨"b.txt", [9]⟩).statusMap ("ingestion_status:" ++ "b.txt") =
        some Status.skipped ∧
    (ingestDocument svcHappy (ingestDocument svcHappy st0 ⟨"b.txt", [9]⟩)
      ⟨"b.txt", [9]⟩).vectors = (ingestDocument svcHappy st0 ⟨"b.txt", [9]⟩).vectors :=
  ⟨by decide,
   (ingest_idempotent_second_call_skips svcHappy st0 ⟨"b.txt", [9]⟩ (by decide)).1,
   (ingest_idempotent_second_call_skips svcHappy st0 ⟨"b.txt", [9]⟩ (by decide)).2⟩

/-- A service record whose embedder fails exactly on the batch holding the
first chunk and succeeds on every other call; the splitter yields three
chunks and the batch size is two, so the first batch fails and the second
succeeds. -/
def svcEmbedBatchFail : Svc :=
  { threshold := 0
  , maxTokens := 3000
  , batchSize := 2
  , sumChunkSize := 500
  , hashFn := fun _ => 7
  , extract := fun _ _ => [⟨1, 1, "alpha", ""⟩]
  , splitText := fun _ => ["c one", "c two", "c three"]
  , encode := fun xs =>
      if xs.contains "passage: c one" then Except.error "embed down"
      else Except.ok (xs.map (fun _ => [0]))
  , summarize := fun _ _ _ => Except.ok "the summary"
  , ceScore := fun _ _ => 0
  , qa := fun _ _ => Except.ok ⟨"ans", 1⟩
  , storeQuery := fun _ _ => ⟨[], [], [], []⟩ }

/-- C1: with the first of two chunk batches failing to embed, ingest_document
does not transition to the failed status and does not stop: it skips the
failed batch, embeds and stores the later batch and the summary record,
saves the digest and ends in the completed status, with only the started and
completed statuses ever written. -/
theorem embed_batch_failure_skipped_not_fatal :
    (ingestDocument svcEmbedBatchFail st0 ⟨"doc.txt", [1, 2, 3]⟩).statusMap
      ("ingestion_status:" ++ "doc.txt") = some Status.completed ∧
    (ingestDocument svcEmbedBatchFail st0 ⟨"doc.txt", [1, 2, 3]⟩).vectors.map
      (fun r => r.text) = ["c three", "the summary"] ∧
    (ingestDocument svcEmbedBatchFail st0 ⟨"doc.txt", [1, 2, 3]⟩).digests
      "doc.txt" = some 7 ∧
    (ingestDocument svcEmbedBatchFail st0 ⟨"doc.txt", [1, 2, 3]⟩).statusLog =
      [("ingestion_status:" ++ "doc.txt", Status.started),
       ("ingestion_status:" ++ "doc.txt", Status.completed)] := by
  decide

/-- A left fold appending one image per element builds exactly the map. -/
theorem foldl_append_eq_map (f : α → β) (l : List α) :
    l.foldl (fun acc x => acc ++ [f x]) [] = l.map f := by
  have h : ∀ (l : List α) (acc : List β),
      l.foldl (fun acc x => acc ++ [f x]) acc = acc ++ l.map f := by
    intro l
    induction l with
    | nil => simp
    | cons x xs ih => intro acc; simp [List.foldl, ih]
  simpa using h l []

/-- The window-summaries fold of hierarchical_summarize is the map of the
per-window step over the windows. -/
theorem hierarchicalSummarize_fold_eq (svc : Svc) (text : String) :
    (stringWindows svc.sumChunkSize text).foldl
      (fun acc chunk => acc ++ [windowSummary svc chunk]) [] =
      windowSummaries svc text :=
  foldl_append_eq_map (windowSummary svc) (stringWindows svc.sumChunkSize text)

/-- C8: hierarchical_summarize is total with respect to summarization
failures: there is one window summary per window, a window whose
summarization fails contributes the empty string while the remaining windows
are still processed, and when the final reduction pass over the joined
window summaries fails the join itself is returned unreduced. -/
theorem hierarchical_summarize_degrades_gracefully (svc : Svc) (text : String)
    (i : Nat) (w : String) (e ef : String)
    (hw : (stringWindows svc.sumChunkSize text)[i]? = some w)
    (he : svc.summarize w (windowMaxLen w) 20 = Except.error e) :
    (windowSummaries svc text).length = (stringWindows svc.sumChunkSize text).length ∧
    (windowSummaries svc text)[i]? = some "" ∧
    (svc.summarize (combinedSummary svc text)
        (finalMaxLen (combinedSummary svc text)) 20 = Except.error ef →
      hierarchicalSummarize svc text = combinedSummary svc text) := by
  refine ⟨List.length_map _ _, ?_, ?_⟩
  · unfold windowSummaries
    rw [List.getElem?_map, hw]
    simp [windowSummary, he]
  · intro hf
    unfold hierarchicalSummarize
    simp only [hierarchicalSummarize_fold_eq]
    have hc : joinSep " " (windowSummaries svc text) = combinedSummary svc text := rfl
    rw [hc, hf]

/-- Witness for C8: with the always-failing summarizer, the single window of
a short text contributes the empty string and the failing final pass returns
the joined window summaries unreduced. -/
theorem hierarchical_summarize_degrades_gracefully_witness :
    (stringWindows svcAllFail.sumChunkSize "hello")[0]? = some "hello" ∧
    (windowSummaries svcAllFail "hello")[0]? = some "" ∧
    hierarchicalSummarize svcAllFail "hello" = combinedSummary svcAllFail "hello" :=
  ⟨by decide,
   (hierarchical_summarize_degrades_gracefully svcAllFail "hello" 0 "hello"
     "summarizer down" "summarizer down" (by decide) rfl).2.1,
   (hierarchical_summarize_degrades_gracefully svcAllFail "hello" 0 "hello"
     "summarizer down" "summarizer down" (by decide) rfl).2.2 rfl⟩

/-- C3: when the question embedding succeeds and no retrieved match reaches
the similarity threshold, query_docs returns the canned response (the
no-relevant-information answer, score 0, empty context, summary, sources and
ranked matches) and the QA capability is never invoked. -/
theorem query_no_qualifying_matches_short_circuits (svc : Svc) (q : String)
    (qe : List ℚ) (rest : List (List ℚ))
    (hembed : batchEmbedTexts svc [q] = qe :: rest)
    (hnone : qualifyingDocs svc.threshold (svc.storeQuery qe 10) = []) :
    queryDocsTrace svc q = ⟨cannedResult q, false, ""⟩ := by
  unfold queryDocsTrace
  rw [hembed]
  simp only [hnone]

/-- A service record whose embedder succeeds and whose store reports one
match too distant to qualify. -/
def svcNoMatch : Svc :=
  { svcAllFail with
    encode := fun _ => Except.ok [[]]
  , storeQuery := fun _ _ => ⟨["far text"], [⟨"d", 1, 1, false⟩], [2], []⟩ }

/-- Witness for C3: a store whose only match has distance 2 (similarity -1,
below the threshold 0) short-circuits to the canned response without
invoking QA. -/
theorem query_no_qualifying_matches_short_circuits_witness :
    batchEmbedTexts svcNoMatch ["anything"] = [] :: [] ∧
    qualifyingDocs svcNoMatch.threshold (svcNoMatch.storeQuery [] 10) = [] ∧
    queryDocsTrace svcNoMatch "anything" = ⟨cannedResult "anything", false, ""⟩ :=
  ⟨rfl,
   by norm_num [qualifyingDocs, svcNoMatch, svcAllFail],
   query_no_qualifying_matches_short_circuits svcNoMatch "anything" [] [] rfl
     (by norm_num [qualifyingDocs, svcNoMatch, svcAllFail])⟩

/-- Every entry the all_docs comprehension keeps reached the threshold. -/
theorem mem_qualifyingDocs_score (t : ℚ) (res : QueryResults) (d : DocEntry)
    (h : d ∈ qualifyingDocs t res) : t ≤ d.score := by
  unfold qualifyingDocs at h
  rw [List.mem_filterMap] at h
  obtain ⟨p, _, hpd⟩ := h
  by_cases hc : t ≤ 1 - p.2
  · rw [if_pos hc] at hpd
    injection hpd with h2
    subst h2
    exact hc
  · rw [if_neg hc] at hpd
    exact absurd hpd (by simp)

/-- C4: every entry of the ranked_matches list of a query_docs response has
similarity (one minus the store-reported distance) at or above the
configured threshold. -/
theorem ranked_matches_meet_threshold (svc : Svc) (q : String) (m : RankedMatch)
    (hm : m ∈ (queryDocs svc q).rankedMatches) :
    svc.threshold ≤ m.similarity := by
  unfold queryDocs queryDocsTrace at hm
  split at hm
  · simp [degradedResult] at hm
  · rename_i qe rest hembed
    simp only [] at hm
    split at hm
    · simp [cannedResult] at hm
    · rename_i d0 drest hqual
      split at hm
      · simp [degradedResult] at hm
      · simp only [List.mem_map] at hm
        obtain ⟨d, hd, hmd⟩ := hm
        rw [rerankWithCrossEncoder, mem_sortDescBy, mem_sortDescBy, ← hqual] at hd
        have hscore := mem_qualifyingDocs_score svc.threshold
          (svc.storeQuery qe 10) d hd
        rw [← hmd]
        exact hscore

/-- A service record whose embedder succeeds, whose store reports exactly one
qualifying match at distance 1, and whose QA succeeds. -/
def svcOneMatch : Svc :=
  { svcAllFail with
    encode := fun _ => Except.ok [[]]
  , storeQuery := fun _ _ => ⟨["hit text"], [⟨"d", 1, 1, false⟩], [1], []⟩
  , qa := fun _ _ => Except.ok ⟨"found", 1⟩ }

/-- Witness for C4 at a concrete store result: the single ranked match has
similarity 0, at the configured threshold 0. -/
theorem ranked_matches_meet_threshold_witness :
    (⟨"hit text", ⟨"d", 1, 1, false⟩, (0 : ℚ)⟩ : RankedMatch) ∈
      (queryDocs svcOneMatch "question").rankedMatches ∧
    svcOneMatch.threshold ≤
      (⟨"hit text", ⟨"d", 1, 1, false⟩, (0 : ℚ)⟩ : RankedMatch).similarity := by
  have hmem : (⟨"hit text", ⟨"d", 1, 1, false⟩, (0 : ℚ)⟩ : RankedMatch) ∈
      (queryDocs svcOneMatch "question").rankedMatches := by
    norm_num [queryDocs, queryDocsTrace, svcOneMatch, svcAllFail, batchEmbedTexts,
      qualifyingDocs, rerankWithCrossEncoder, sortDescBy, insertDescBy,
      qaContextParts, addChunksToContext, joinSep,
      List.filterMap_cons, List.filterMap_nil,
      show strTrim "found" = "found" from by decide,
      show wordCount "hit text" = 2 from by decide]
  exact ⟨hmem, ranked_matches_meet_threshold svcOneMatch "question" _ hmem⟩

/-- A service record that retrieves one qualifying match but whose QA
capability always fails. -/
def svcQaFail : Svc :=
  { svcOneMatch with qa := fun _ _ => Except.error "qa down" }

/-- C7 counterexample: on an internal QA failure, the degraded response of
query_docs carries no rag_metrics field (the error dict omits the key), so
the response does not contain every field of the success response. -/
theorem query_failure_response_missing_rag_metrics :
    (queryDocs svcQaFail "question").answer =
      "An error occurred while processing your query." ∧
    (queryDocs svcQaFail "question").score = 0 ∧
    (queryDocs svcQaFail "question").ragMetrics = none := by
  have h : queryDocs svcQaFail "question" = degradedResult "question" := by
    norm_num [queryDocs, queryDocsTrace, svcQaFail, svcOneMatch, svcAllFail,
      batchEmbedTexts, qualifyingDocs, List.filterMap_cons, List.filterMap_nil]
  rw [h]
  exact ⟨rfl, rfl, rfl⟩

/-- C7 as amended: query_docs is total (the model returns a response on every
path), and on an internal failure (question embedding yielding nothing, or
the QA capability failing) it returns a well-formed response carrying the
question, a zero score, empty context, summary, sources and ranked matches,
and a degraded or canned answer text, while the rag_metrics field is absent
rather than present. -/
theorem query_failure_returns_degraded_response (svc : Svc) (q : String)
    (h : batchEmbedTexts svc [q] = [] ∨ ∀ c, ∃ e, svc.qa q c = Except.error e) :
    (queryDocs svc q).question = q ∧
    (queryDocs svc q).score = 0 ∧
    (queryDocs svc q).context = [] ∧
    (queryDocs svc q).summary = "" ∧
    (queryDocs svc q).sources = [] ∧
    (queryDocs svc q).rankedMatches = [] ∧
    (queryDocs svc q).ragMetrics = none ∧
    ((queryDocs svc q).answer = "An error occurred while processing your query." ∨
      (queryDocs svc q).answer = "No relevant information found.") := by
  have hres : queryDocs svc q = degradedResult q ∨ queryDocs svc q = cannedResult q := by
    rcases h with h | h
    · left
      unfold queryDocs queryDocsTrace
      rw [h]
    · unfold queryDocs queryDocsTrace
      cases hembed : batchEmbedTexts svc [q] with
      | nil => left; rfl
      | cons qe rest =>
        cases hqual : qualifyingDocs svc.threshold (svc.storeQuery qe 10) with
        | nil => right; simp [hqual]
        | cons d0 drest =>
          left
          simp only [hqual]
          obtain ⟨e, he⟩ := h (joinSep "\n\n"
            (qaContextParts (joinSep "\n\n" (svc.storeQuery qe 10).summaries)
              (rerankWithCrossEncoder svc q (sortDescBy (fun d => d.score) (d0 :: drest)))
              svc.maxTokens).1)
          rw [he]
  rcases hres with hd | hd <;> rw [hd]
  · exact ⟨rfl, rfl, rfl, rfl, rfl, rfl, rfl, Or.inl rfl⟩
  · exact ⟨rfl, rfl, rfl, rfl, rfl, rfl, rfl, Or.inr rfl⟩

/-- Witness for C7 at the service whose QA always fails. -/
theorem query_failure_returns_degraded_response_witness :
    (queryDocs svcQaFail "question").question = "question" ∧
    (queryDocs svcQaFail "question").score = 0 ∧
    (queryDocs svcQaFail "question").ragMetrics = none ∧
    ((queryDocs svcQaFail "question").answer =
        "An error occurred while processing your query." ∨
      (queryDocs svcQaFail "question").answer = "No relevant information found.") := by
  have h := query_failure_returns_degraded_response svcQaFail "question"
    (Or.inr (fun c => ⟨"qa down", rfl⟩))
  exact ⟨h.1, h.2.1, h.2.2.2.2.2.2.1, h.2.2.2.2.2.2.2⟩

/-- The context loop never pushes the running count past the budget when it
starts at or under it. -/
theorem addChunks_le (budget : Nat) (ds : List DocEntry) :
    ∀ tc, tc ≤ budget → (addChunksToContext budget ds tc).2 ≤ budget := by
  induction ds with
  | nil => intro tc h; exact h
  | cons d ds ih =>
    intro tc h
    unfold addChunksToContext
    by_cases hc : budget < tc + wordCount d.document
    · simp only [hc, if_true]; exact h
    · simp only [hc, if_false]
      exact ih (tc + wordCount d.document) (Nat.le_of_not_lt hc)

/-- The final running count of the context loop is the starting count plus
the word counts of the appended chunks. -/
theorem addChunks_sum (budget : Nat) (ds : List DocEntry) :
    ∀ tc, (addChunksToContext budget ds tc).2 =
      tc + (((addChunksToContext budget ds tc).1).map wordCount).sum := by
  induction ds with
  | nil => intro tc; simp [addChunksToContext]
  | cons d ds ih =>
    intro tc
    unfold addChunksToContext
    by_cases hc : budget < tc + wordCount d.document
    · simp [hc]
    · simp only [hc, if_false, List.map_cons, List.sum_cons]
      rw [ih (tc + wordCount d.document)]
      omega

/-- The chunks kept by the context loop are an initial segment of the chunk
texts in their reranked order, each kept whole. -/
theorem addChunks_take (budget : Nat) (ds : List DocEntry) :
    ∀ tc, ∃ k, (addChunksToContext budget ds tc).1 =
      (ds.map (fun d => d.document)).take k := by
  induction ds with
  | nil => intro tc; exact ⟨0, by simp [addChunksToContext]⟩
  | cons d ds ih =>
    intro tc
    unfold addChunksToContext
    by_cases hc : budget < tc + wordCount d.document
    · exact ⟨0, by simp [hc]⟩
    · obtain ⟨k, hk⟩ := ih (tc + wordCount d.document)
      exact ⟨k + 1, by simp [hc, List.map_cons, List.take_succ_cons, hk]⟩

/-- The summary header block contributes exactly one word beyond the summary
text itself (the word Summary: in front of the newline). -/
theorem wordCount_summary_header (s : String) :
    wordCount ("Summary:\n" ++ s) = 1 + wordCount s := by
  unfold wordCount words
  rw [string_data_append,
    show ("Summary:\n").data = "Summary:".data ++ ['\n'] from rfl,
    List.append_assoc, List.singleton_append,
    wordsAux_append_ws ("Summary:".data) [] '\n' s.data rfl,
    List.length_append,
    show (wordsAux [] ("Summary:".data)).length = 1 from by decide]

/-- C5 as amended: the QA context places the summary block first when the
summary text is nonempty, then appends reranked chunk texts in order and
whole (never truncated), tracking a running word count; provided the summary
word count is within the budget, the tracked count never exceeds the budget
and the assembled context string exceeds the budget by at most the one
uncounted word of the Summary: header.  A summary longer than the budget is
never trimmed, so then the context exceeds the budget. -/
theorem qa_context_budget_respected_given_summary_fits (summaryText : String)
    (docs : List DocEntry) (budget : Nat) (h : wordCount summaryText ≤ budget) :
    (qaContextParts summaryText docs budget).2 ≤ budget ∧
    wordCount (joinSep "\n\n" (qaContextParts summaryText docs budget).1) ≤
      budget + (if summaryText = "" then 0 else 1) ∧
    (summaryText ≠ "" → (qaContextParts summaryText docs budget).1.head? =
      some ("Summary:\n" ++ summaryText)) ∧
    (∃ k, (qaContextParts summaryText docs budget).1.drop
      (if summaryText = "" then 0 else 1) =
        (docs.map (fun d => d.document)).take k) := by
  by_cases hs : summaryText = ""
  · simp only [qaContextParts, hs, if_true, List.nil_append, List.drop_zero]
    refine ⟨addChunks_le budget docs 0 (Nat.zero_le budget), ?_, ?_, ?_⟩
    · rw [wordCount_joinSep_nn, ← Nat.zero_add
        ((((addChunksToContext budget docs 0).1).map wordCount).sum),
        ← addChunks_sum budget docs 0]
      exact Nat.le_add_right_of_le (addChunks_le budget docs 0 (Nat.zero_le budget))
    · intro hcon; exact absurd rfl hcon
    · exact addChunks_take budget docs 0
  · simp only [qaContextParts, hs, if_false, List.cons_append, List.nil_append,
      List.head?_cons, List.drop_succ_cons, List.drop_zero]
    refine ⟨addChunks_le budget docs (wordCount summaryText) h, ?_,
      fun _ => trivial, addChunks_take budget docs (wordCount summaryText)⟩
    cases hparts : (addChunksToContext budget docs (wordCount summaryText)).1 with
    | nil =>
      simp only [joinSep, wordCount_summary_header]
      have hb := addChunks_le budget docs (wordCount summaryText) h
      omega
    | cons p ps =>
      rw [joinSep, wordCount_append_of_sep _ "\n\n" _ '\n' ['\n'] rfl rfl rfl,
        wordCount_summary_header, wordCount_joinSep_nn]
      have hsum := addChunks_sum budget docs (wordCount summaryText)
      have hle := addChunks_le budget docs (wordCount summaryText) h
      rw [hparts] at hsum
      omega

/-- Witness for C5 at a concrete short summary and single chunk under the
default budget of 3000. -/
theorem qa_context_budget_respected_given_summary_fits_witness :
    wordCount "short summary" ≤ 3000 ∧
    (qaContextParts "short summary"
      [⟨"chunk text", ⟨"d", 1, 1, false⟩, 0⟩] 3000).2 ≤ 3000 ∧
    wordCount (joinSep "\n\n" (qaContextParts "short summary"
      [⟨"chunk text", ⟨"d", 1, 1, false⟩, 0⟩] 3000).1) ≤
      3000 + (if ("short summary" : String) = "" then 0 else 1) ∧
    (qaContextParts "short summary"
      [⟨"chunk text", ⟨"d", 1, 1, false⟩, 0⟩] 3000).1.head? =
      some ("Summary:\n" ++ "short summary") :=
  ⟨by decide,
   (qa_context_budget_respected_given_summary_fits "short summary"
     [⟨"chunk text", ⟨"d", 1, 1, false⟩, 0⟩] 3000 (by decide)).1,
   (qa_context_budget_respected_given_summary_fits "short summary"
     [⟨"chunk text", ⟨"d", 1, 1, false⟩, 0⟩] 3000 (by decide)).2.1,
   (qa_context_budget_respected_given_summary_fits "short summary"
     [⟨"chunk text", ⟨"d", 1, 1, false⟩, 0⟩] 3000 (by decide)).2.2.1
     (by decide)⟩

/-- A string of n single-letter words separated by single spaces. -/
def budgetWords (n : Nat) : String := joinSep " " (List.replicate n "a")

/-- The word count of budgetWords n is n. -/
theorem wordCount_budgetWords (n : Nat) : wordCount (budgetWords n) = n := by
  unfold budgetWords
  rw [wordCount_joinSep_space, List.map_replicate,
    show wordCount "a" = 1 from by decide, List.sum_replicate, smul_eq_mul,
    Nat.mul_one]

/-- A nonzero count of words forces a nonempty string. -/
theorem budgetWords_ne_empty (n : Nat) (hn : 0 < n) : budgetWords n ≠ "" := by
  intro hcon
  have h := wordCount_budgetWords n
  rw [hcon] at h
  rw [show wordCount "" = 0 from rfl] at h
  omega

/-- A service record under the default budget 3000 whose store returns one
qualifying match and a document summary of 3001 words. -/
def svcBigSummary : Svc :=
  { svcAllFail with
    encode := fun _ => Except.ok [[]]
  , storeQuery := fun _ _ =>
      ⟨["hit text"], [⟨"d", 1, 1, false⟩], [1], [budgetWords 3001]⟩
  , qa := fun _ _ => Except.ok ⟨"found", 1⟩ }

/-- On the non-short-circuiting path, the context string handed to QA is the
join of the budgeted context parts built from the store summaries and the
reranked qualifying matches. -/
theorem queryDocsTrace_context (svc : Svc) (q : String) (qe : List ℚ)
    (rest : List (List ℚ)) (d0 : DocEntry) (drest : List DocEntry)
    (hembed : batchEmbedTexts svc [q] = qe :: rest)
    (hqual : qualifyingDocs svc.threshold (svc.storeQuery qe 10) = d0 :: drest) :
    (queryDocsTrace svc q).qaContextStr =
      joinSep "\n\n" (qaContextParts
        (joinSep "\n\n" (svc.storeQuery qe 10).summaries)
        (rerankWithCrossEncoder svc q (sortDescBy (fun d => d.score) (d0 :: drest)))
        svc.maxTokens).1 := by
  unfold queryDocsTrace
  rw [hembed]
  simp only [hqual]
  cases hqa : svc.qa q (joinSep "\n\n" (qaContextParts
      (joinSep "\n\n" (svc.storeQuery qe 10).summaries)
      (rerankWithCrossEncoder svc q (sortDescBy (fun d => d.score) (d0 :: drest)))
      svc.maxTokens).1) with
  | error e => rfl
  | ok ans => rfl

/-- C5 counterexample: under the default budget of 3000 word-count units, a
store-returned document summary of 3001 words is placed into the QA context
untrimmed, so the word count of the assembled context exceeds the budget. -/
theorem qa_context_budget_exceeded_by_large_summary :
    svcBigSummary.maxTokens = 3000 ∧
    3000 < wordCount ((queryDocsTrace svcBigSummary "question").qaContextStr) := by
  have hne := budgetWords_ne_empty 3001 (by omega)
  have hwc := wordCount_budgetWords 3001
  have hq : qualifyingDocs svcBigSummary.threshold (svcBigSummary.storeQuery [] 10) =
      [⟨"hit text", ⟨"d", 1, 1, false⟩, 0⟩] := by
    norm_num [qualifyingDocs, svcBigSummary, svcAllFail, List.filterMap_cons,
      List.filterMap_nil]
  have hctxeq := queryDocsTrace_context svcBigSummary "question" [] []
    ⟨"hit text", ⟨"d", 1, 1, false⟩, 0⟩ [] rfl hq
  refine ⟨rfl, ?_⟩
  rw [hctxeq,
    show joinSep "\n\n" (svcBigSummary.storeQuery [] 10).summaries =
      budgetWords 3001 from rfl,
    show rerankWithCrossEncoder svcBigSummary "question"
      (sortDescBy (fun d => d.score)
        [(⟨"hit text", ⟨"d", 1, 1, false⟩, 0⟩ : DocEntry)]) =
      [(⟨"hit text", ⟨"d", 1, 1, false⟩, 0⟩ : DocEntry)] from rfl,
    show svcBigSummary.maxTokens = 3000 from rfl]
  simp only [qaContextParts, hne, ite_false, eq_false hne]
  rw [hwc,
    show addChunksToContext 3000
      [(⟨"hit text", ⟨"d", 1, 1, false⟩, 0⟩ : DocEntry)] 3001 = ([], 3001) from by
      norm_num [addChunksToContext, show wordCount "hit text" = 2 from by decide]]
  simp only [List.append_nil]
  rw [show joinSep "\n\n" ["Summary:\n" ++ budgetWords 3001] =
    "Summary:\n" ++ budgetWords 3001 from rfl, wordCount_summary_header, hwc]
  omega

end OrbisAI
